import Mathlib

/-!
# Sign-up form (`src/App.jsx`): a shallow embedding

The component `App` keeps three pieces of React state (`formData`, `errors`,
`submissionSuccess`) and four handlers close over them: `handleChange`,
`handleRegionChange`, `validateForm` and `handleSubmit`.  Each handler is
embedded as a function on an explicit `State`; the effects of `handleSubmit`
(the request it sends, what it logs, the timer it arms) are returned next to
the new state.

`./regions` and `./Validations` are imported by `App.jsx`; the lookup table
and the two patterns they export are taken as parameters (`Env`).

JavaScript strings are embedded as `String`.  The two patterns written in
`App.jsx` itself only tell the ASCII digits `0`-`9` from everything else, so
they act on a `String` the way they act on the JavaScript string it encodes.
-/

namespace SignUpForm

/-! ## Data model -/

/-- The keys of the `formData` object literal of `useState` (lines 16-23). -/
inductive Field where
  | firstName
  | lastName
  | region
  | regionCode
  | phoneNumber
  | email
  deriving DecidableEq, Repr

/-- A value a `formData` property can hold.  Every property starts as a string
and the inputs write strings; `regionCode` receives `regions[selectedRegion]`,
which is whatever the table holds, or `undefined` for a key the table lacks. -/
inductive Value where
  | undefined
  | str (s : String)
  | num (n : Int)
  deriving DecidableEq, Repr

/-- The `formData` state: an object with exactly the six keys of its initial
literal; every update spreads the previous object and overwrites keys. -/
structure FormData where
  firstName : String
  lastName : String
  region : String
  regionCode : Value
  phoneNumber : String
  email : String
  deriving DecidableEq, Repr

/-- A JavaScript object keyed by field names with string values, its keys in
insertion order: the `errors` state (`useState({})`) and `newErrors`. -/
abbrev Errors := List (Field × String)

/-- The imports of `App.jsx` that are not part of the file: the `regions`
table of `./regions`, the `test` method of `nameRegex` and of `emailRegex` of
`./Validations`, and the platform function `JSON.stringify` applied to a
`formData` object. -/
structure Env where
  regions : List (String × Value)
  nameRegex : String → Bool
  emailRegex : String → Bool
  jsonStringify : FormData → String

/-- The three React states of `App`. -/
structure State where
  formData : FormData
  errors : Errors
  submissionSuccess : Bool
  deriving DecidableEq, Repr

/-- The literal passed to `useState` for `formData`, and again to
`setFormData` after a successful submission. -/
def initialFormData : FormData :=
  { firstName := "", lastName := "", region := "", regionCode := .str "",
    phoneNumber := "", email := "" }

/-- The state of `App` at its first render. -/
def initialState : State :=
  { formData := initialFormData, errors := [], submissionSuccess := false }

/-! ## Object access -/

/-- Property read `formData[name]`. -/
def FormData.get (fd : FormData) : Field → Value
  | .firstName => .str fd.firstName
  | .lastName => .str fd.lastName
  | .region => .str fd.region
  | .regionCode => fd.regionCode
  | .phoneNumber => .str fd.phoneNumber
  | .email => .str fd.email

/-- The object `{ ...prev, [name]: v }` for a string `v`. -/
def FormData.set (prev : FormData) (name : Field) (v : String) : FormData :=
  match name with
  | .firstName => { prev with firstName := v }
  | .lastName => { prev with lastName := v }
  | .region => { prev with region := v }
  | .regionCode => { prev with regionCode := .str v }
  | .phoneNumber => { prev with phoneNumber := v }
  | .email => { prev with email := v }

/-- Property read `errors[name]`: `none` is JavaScript's `undefined`, the key
is absent. -/
def Errors.get (errs : Errors) (name : Field) : Option String :=
  List.lookup name errs

/-- The object `{ ...prev, [name]: v }`: an existing key keeps its place
and takes the new value, a new key goes last. -/
def Errors.set : Errors → Field → String → Errors
  | [], name, v => [(name, v)]
  | (k, w) :: rest, name, v =>
    if k = name then (k, v) :: rest else (k, w) :: Errors.set rest name v

/-- The array `Object.keys(errs)`. -/
def Errors.keys (errs : Errors) : List Field :=
  errs.map Prod.fst

/-- The read `regions[selectedRegion]`: `undefined` when the table has no
such key. -/
def regionsLookup (env : Env) (selectedRegion : String) : Value :=
  match env.regions.lookup selectedRegion with
  | some code => code
  | none => .undefined

/-! ## The two patterns written in `App.jsx` -/

/-- The call `value.replace(/\D/g, '')`: every character that is not one of
`0`-`9` is deleted. -/
def removeNonDigits (value : List Char) : List Char :=
  value.filter Char.isDigit

/-- Whether `/(\d{3})(\d{3})(\d{4})/` matches at the very start of `s`: the
first ten characters exist and are digits. -/
def matchesGroupsAtStart (s : List Char) : Bool :=
  (s.take 10).length == 10 && (s.take 10).all Char.isDigit

/-- The call `s.replace(/(\d{3})(\d{3})(\d{4})/, '$1-$2-$3')`: the pattern has no
`g` flag, so only the leftmost match is rewritten, into its three groups
joined by hyphens; the text before and after the match is kept. -/
def replaceGroups : List Char → List Char
  | [] => []
  | c :: cs =>
    if matchesGroupsAtStart (c :: cs) then
      (c :: cs).take 3 ++ '-' :: ((c :: cs).drop 3).take 3
        ++ '-' :: ((c :: cs).drop 6).take 4 ++ (c :: cs).drop 10
    else c :: replaceGroups cs

/-- The `formattedValue` of `handleChange` (lines 42-44). -/
def formattedValue (value : String) : String :=
  String.mk (replaceGroups (removeNonDigits value.data))

/-! ## Handlers -/

/-- The handler `handleChange` (lines 28-52) for an event whose target has the
given `name` and `value`. -/
def handleChange (env : Env) (st : State) (name : Field) (value : String) : State :=
  if (name = .firstName ∨ name = .lastName) ∧ env.nameRegex value = false ∧ value ≠ "" then
    st
  else
    { st with
      formData :=
        if name = .phoneNumber then st.formData.set name (formattedValue value)
        else st.formData.set name value
      errors := st.errors.set name "" }

/-- The handler `handleRegionChange` (lines 54-62) for an event whose target
has value `selectedRegion`. -/
def handleRegionChange (env : Env) (st : State) (selectedRegion : String) : State :=
  let code := regionsLookup env selectedRegion
  { st with formData := { st.formData with region := selectedRegion, regionCode := code } }

/-- The object `newErrors` that `validateForm` builds (lines 65-81). -/
def newErrors (env : Env) (formData : FormData) : Errors :=
  let e0 : Errors := []
  let e1 := if formData.firstName = "" then e0.set .firstName "First name is required" else e0
  let e2 := if formData.lastName = "" then e1.set .lastName "Last name is required" else e1
  let e3 := if formData.region = "" then e2.set .region "Region is required" else e2
  let e4 :=
    if formData.phoneNumber = "" ∨ (removeNonDigits formData.phoneNumber.data).length > 10 then
      e3.set .phoneNumber "Phone number must of 10 digits"
    else e3
  if formData.email = "" then e4.set .email "Email is required"
  else if env.emailRegex formData.email = false then e4.set .email "Invalid email address"
  else e4

/-- The function `validateForm` (lines 64-84): the object handed to
`setErrors` and the returned boolean. -/
def validateForm (env : Env) (formData : FormData) : Errors × Bool :=
  let errs := newErrors env formData
  (errs, errs.keys.length == 0)

/-- How the awaited `fetch` settles: a response with `ok` true, a response
with `ok` false, or a rejected promise. -/
inductive Outcome where
  | ok
  | notOk
  | networkError
  deriving DecidableEq, Repr

/-- A call of `fetch`: its URL and the `method`, `headers` and `body` of its
options. -/
structure Request where
  url : String
  method : String
  headers : List (String × String)
  body : String
  deriving DecidableEq, Repr

/-- What one run of `handleSubmit` leaves behind: the state, the requests
sent, the lines written with `console.error` and the delays of the timers
armed with `setTimeout`. -/
structure SubmitResult where
  state : State
  requests : List Request
  logs : List String
  timers : List Nat
  deriving DecidableEq, Repr

/-- The `fetch` call of `handleSubmit` (lines 90-96). -/
def submitRequest (env : Env) (formData : FormData) : Request :=
  { url := "http://localhost:3001/users"
    method := "POST"
    headers := [("Content-Type", "application/json")]
    body := env.jsonStringify formData }

/-- The code of `handleSubmit` after `await fetch(...)` (lines 99-115), run on
the state current when the fetch settles. -/
def afterFetch (outcome : Outcome) (st : State) : State × List String × List Nat :=
  match outcome with
  | .ok => ({ st with submissionSuccess := true, formData := initialFormData }, [], [3000])
  | .notOk => (st, ["Error submitting form"], [])
  | .networkError => (st, ["Network error"], [])

/-- The callback armed by `setTimeout` (line 101). -/
def hideSuccess (st : State) : State :=
  { st with submissionSuccess := false }

/-- The handler `handleSubmit` (lines 86-116), the fetch settling with
`outcome` before any other event is handled. -/
def handleSubmit (env : Env) (st : State) (outcome : Outcome) : SubmitResult :=
  let (errs, valid) := validateForm env st.formData
  let st1 := { st with errors := errs }
  if valid = false then
    { state := st1, requests := [], logs := [], timers := [] }
  else
    let request := submitRequest env st.formData
    let (st2, logs, timers) := afterFetch outcome st1
    { state := st2, requests := [request], logs := logs, timers := timers }

/-! ## Reachable states -/

/-- The inputs whose `onChange` is `handleChange` (lines 130-201): the
`name` attributes `firstName`, `lastName`, `phoneNumber` and `email`. -/
def wiredInput : Field → Prop
  | .firstName => True
  | .lastName => True
  | .phoneNumber => True
  | .email => True
  | .region => False
  | .regionCode => False

/-- Any `name` at all on the event handed to `handleChange`. -/
def anyInput : Field → Prop :=
  fun _ => True

/-- The states `App` can be in, `handleChange` being called with the names
`allowed` admits.  Beside the three handlers run to completion, the part of
`handleSubmit` after its `await` may run when later events have already been
handled (`settle`), and the timer callback runs on its own (`timeout`). -/
inductive Reachable (env : Env) (allowed : Field → Prop) : State → Prop where
  | init : Reachable env allowed initialState
  | change (st : State) (name : Field) (value : String) :
      Reachable env allowed st → allowed name →
      Reachable env allowed (handleChange env st name value)
  | regionChange (st : State) (selectedRegion : String) :
      Reachable env allowed st →
      Reachable env allowed (handleRegionChange env st selectedRegion)
  | submit (st : State) (outcome : Outcome) :
      Reachable env allowed st →
      Reachable env allowed (handleSubmit env st outcome).state
  | settle (st : State) (outcome : Outcome) :
      Reachable env allowed st →
      Reachable env allowed (afterFetch outcome st).1
  | timeout (st : State) :
      Reachable env allowed st →
      Reachable env allowed (hideSuccess st)

/-! ## The claims' own words -/

/-- The number of digit characters of a string. -/
def digitCount (s : String) : Nat :=
  s.data.countP Char.isDigit

/-- The check of a field, as the validation rules word it: a required field
is empty, the phone number is empty or has more than ten digits, the email is
empty or does not match the email pattern.  `regionCode` has no check. -/
def failsCheck (env : Env) (fd : FormData) : Field → Prop
  | .firstName => fd.firstName = ""
  | .lastName => fd.lastName = ""
  | .region => fd.region = ""
  | .regionCode => False
  | .phoneNumber => fd.phoneNumber = "" ∨ 10 < digitCount fd.phoneNumber
  | .email => fd.email = "" ∨ env.emailRegex fd.email = false

/-- Ten digits written `AAA-BBB-CCCC`: groups of three, three and four. -/
def hyphenate (ten : List Char) : List Char :=
  ten.take 3 ++ ['-'] ++ (ten.drop 3).take 3 ++ ['-'] ++ ten.drop 6

/-- The digit-grouped form of the digits of `value`, case by case on how many
digits there are. -/
def groupedDigits (value : String) : String :=
  let d := value.data.filter Char.isDigit
  if d.length < 10 then String.mk d
  else if d.length = 10 then String.mk (hyphenate d)
  else String.mk (hyphenate (d.take 10) ++ d.drop 10)

/-- Deleting every hyphen of a string. -/
def removeHyphens (s : String) : String :=
  String.mk (s.data.filter (fun c => c != '-'))

/-- A name field holds nothing or a string the name pattern accepts. -/
def nameAllowed (env : Env) (s : String) : Prop :=
  s = "" ∨ env.nameRegex s = true

/-! ## Sample data -/

/-- A table and two patterns to run the handlers on. -/
def sampleEnv : Env :=
  { regions := [("India", .str "+91"), ("Canada", .str "+1")]
    nameRegex := fun s => s.data.all (fun c => c.isAlpha || c == ' ')
    emailRegex := fun s => s.data.contains '@'
    jsonStringify := fun fd =>
      String.intercalate "|" [fd.firstName, fd.lastName, fd.region, fd.phoneNumber, fd.email] }

/-- A filled-in form that passes validation. -/
def filledForm : FormData :=
  { firstName := "Ann", lastName := "Lee", region := "India", regionCode := .str "+91",
    phoneNumber := "123-456-7890", email := "ann@x.io" }

/-- The filled-in form with a three-digit phone number. -/
def shortPhoneForm : FormData :=
  { filledForm with phoneNumber := "123" }

end SignUpForm

namespace SignUpForm

/-! ## Objects: reading after writing -/

theorem errors_get_set_same (errs : Errors) (name : Field) (v : String) :
    (errs.set name v).get name = some v := by
  induction errs with
  | nil => simp [Errors.set, Errors.get, List.lookup]
  | cons kw rest ih =>
    obtain ⟨k, w⟩ := kw
    by_cases h : k = name
    · subst h
      simp [Errors.set, Errors.get, List.lookup]
    · have h' : (name == k) = false := by
        simpa using fun e : name = k => h e.symm
      simp only [Errors.set, if_neg h, Errors.get, List.lookup, h']
      exact ih

theorem errors_get_set_other (errs : Errors) (name other : Field) (v : String)
    (h : other ≠ name) : (errs.set name v).get other = errs.get other := by
  induction errs with
  | nil =>
    have h' : (other == name) = false := by simpa using h
    simp [Errors.set, Errors.get, List.lookup, h']
  | cons kw rest ih =>
    obtain ⟨k, w⟩ := kw
    by_cases hk : k = name
    · subst hk
      have h' : (other == k) = false := by simpa using h
      simp [Errors.set, Errors.get, List.lookup, h']
    · simp only [Errors.set, if_neg hk, Errors.get, List.lookup]
      cases hok : other == k
      · exact ih
      · rfl

theorem errors_set_set (errs : Errors) (name : Field) (v : String) :
    (errs.set name v).set name v = errs.set name v := by
  induction errs with
  | nil => simp [Errors.set]
  | cons kw rest ih =>
    obtain ⟨k, w⟩ := kw
    by_cases h : k = name
    · simp [Errors.set, h]
    · simp [Errors.set, h, ih]

theorem formData_get_set_same (fd : FormData) (name : Field) (v : String) :
    (fd.set name v).get name = .str v := by
  cases name <;> rfl

theorem formData_get_set_other (fd : FormData) (name other : Field) (v : String)
    (h : other ≠ name) : (fd.set name v).get other = fd.get other := by
  cases name <;> cases other <;> first | rfl | exact absurd rfl h

/-! ## Validation -/

theorem removeNonDigits_length (s : String) :
    (removeNonDigits s.data).length = digitCount s := by
  simp [removeNonDigits, digitCount, List.countP_eq_length_filter]

theorem errors_keys_length_eq_zero (errs : Errors) :
    (errs.keys.length == 0) = true ↔ ∀ name : Field, (errs.get name).isSome = false := by
  cases errs with
  | nil => simp [Errors.keys, Errors.get, List.lookup]
  | cons kw rest =>
    obtain ⟨k, w⟩ := kw
    constructor
    · intro h
      simp [Errors.keys] at h
    · intro h
      have hk := h k
      simp [Errors.get, List.lookup] at hk

theorem newErrors_entry (env : Env) (fd : FormData) (name : Field) :
    ((newErrors env fd).get name).isSome = true ↔ failsCheck env fd name := by
  have hlen := removeNonDigits_length fd.phoneNumber
  simp only [newErrors, hlen]
  by_cases h1 : fd.firstName = "" <;> by_cases h2 : fd.lastName = "" <;>
    by_cases h3 : fd.region = "" <;>
    by_cases h4 : fd.phoneNumber = "" ∨ digitCount fd.phoneNumber > 10 <;>
    by_cases h5 : fd.email = "" <;> by_cases h6 : env.emailRegex fd.email = false <;>
    cases name <;>
    simp [h1, h2, h3, h4, h5, h6, Errors.set, Errors.get, List.lookup, failsCheck] <;>
    decide

/-- C1: `validateForm` returns true exactly when the four required fields and
the phone number are non-empty, the phone number has at most ten digits and
the email matches the email pattern; the object it stores has an entry for
exactly the fields that fail their check, and it returns false exactly when
that object has an entry. -/
theorem validateForm_spec (env : Env) (fd : FormData) :
    ((validateForm env fd).2 = true ↔
      fd.firstName ≠ "" ∧ fd.lastName ≠ "" ∧ fd.region ≠ "" ∧ fd.email ≠ "" ∧
      fd.phoneNumber ≠ "" ∧ digitCount fd.phoneNumber ≤ 10 ∧
      env.emailRegex fd.email = true) ∧
    (∀ name : Field, ((validateForm env fd).1.get name).isSome = true ↔ failsCheck env fd name) ∧
    ((validateForm env fd).2 = false ↔
      ∃ name : Field, ((validateForm env fd).1.get name).isSome = true) := by
  have key := newErrors_entry env fd
  have hret : (validateForm env fd).2 = true ↔ ∀ name : Field, ¬ failsCheck env fd name := by
    show ((newErrors env fd).keys.length == 0) = true ↔ _
    rw [errors_keys_length_eq_zero]
    constructor
    · intro h name hf
      have := (key name).2 hf
      rw [h name] at this
      exact Bool.noConfusion this
    · intro h name
      cases hs : ((newErrors env fd).get name).isSome
      · rfl
      · exact absurd ((key name).1 hs) (h name)
  refine ⟨?_, key, ?_⟩
  · rw [hret]
    constructor
    · intro h
      have h1 := h .firstName
      have h2 := h .lastName
      have h3 := h .region
      have h4 := h .phoneNumber
      have h5 := h .email
      simp only [failsCheck, not_or, not_lt] at h1 h2 h3 h4 h5
      refine ⟨h1, h2, h3, h5.1, h4.1, h4.2, ?_⟩
      simpa using h5.2
    · rintro ⟨h1, h2, h3, h4, h5, h6, h7⟩ name
      cases name <;> simp [failsCheck, h1, h2, h3, h4, h5, h6, h7]
  · rw [← Bool.not_eq_true, hret]
    simp only [not_forall, not_not]
    exact exists_congr fun name => (key name).symm

/-! ## Phone-number formatting -/

theorem take_drop_pieces (l : List Char) :
    l.take 3 ++ ((l.drop 3).take 3 ++ ((l.drop 6).take 4 ++ l.drop 10)) = l := by
  have h1 : (l.drop 6).take 4 ++ l.drop 10 = l.drop 6 := by
    have := List.take_append_drop 4 (l.drop 6)
    rwa [List.drop_drop] at this
  have h2 : (l.drop 3).take 3 ++ l.drop 6 = l.drop 3 := by
    have := List.take_append_drop 3 (l.drop 3)
    rwa [List.drop_drop] at this
  rw [h1, h2, List.take_append_drop]

theorem replaceGroups_cons (c : Char) (cs : List Char) :
    replaceGroups (c :: cs) =
      if matchesGroupsAtStart (c :: cs) then
        (c :: cs).take 3 ++ '-' :: ((c :: cs).drop 3).take 3
          ++ '-' :: ((c :: cs).drop 6).take 4 ++ (c :: cs).drop 10
      else c :: replaceGroups cs := by
  rw [replaceGroups]

theorem filter_hyphenated (p : Char → Bool) (hp : p '-' = false) (l : List Char) :
    (l.take 3 ++ '-' :: (l.drop 3).take 3 ++ '-' :: (l.drop 6).take 4 ++ l.drop 10).filter p =
      l.filter p := by
  have h := congrArg (List.filter p) (take_drop_pieces l)
  simp only [List.filter_append] at h
  simp only [List.filter_append, List.filter_cons, hp, List.append_assoc]
  exact h

theorem filter_replaceGroups (p : Char → Bool) (hp : p '-' = false) (l : List Char) :
    (replaceGroups l).filter p = l.filter p := by
  induction l with
  | nil => simp [replaceGroups]
  | cons c cs ih =>
    rw [replaceGroups_cons]
    split
    · exact filter_hyphenated p hp (c :: cs)
    · simp only [List.filter_cons, ih]

theorem replaceGroups_short (l : List Char) (h : l.length < 10) : replaceGroups l = l := by
  induction l with
  | nil => simp [replaceGroups]
  | cons c cs ih =>
    have hm : matchesGroupsAtStart (c :: cs) = false := by
      have hl : (((c :: cs).take 10).length == 10) = false := by
        rw [beq_eq_false_iff_ne, List.length_take]
        omega
      rw [matchesGroupsAtStart, hl, Bool.false_and]
    rw [replaceGroups_cons, hm]
    simp only [Bool.false_eq_true, if_false]
    rw [ih (by simp at h; omega)]

theorem replaceGroups_digits (d : List Char) (hd : d.all Char.isDigit = true)
    (h : 10 ≤ d.length) :
    replaceGroups d =
      d.take 3 ++ '-' :: (d.drop 3).take 3 ++ '-' :: (d.drop 6).take 4 ++ d.drop 10 := by
  cases d with
  | nil => simp at h
  | cons c cs =>
    have hm : matchesGroupsAtStart (c :: cs) = true := by
      have hl : ((c :: cs).take 10).length = 10 := by
        rw [List.length_take]
        omega
      have ha : ((c :: cs).take 10).all Char.isDigit = true := by
        rw [List.all_eq_true] at hd ⊢
        intro x hx
        exact hd x (List.mem_of_mem_take hx)
      simp only [matchesGroupsAtStart, hl, ha, beq_self_eq_true, Bool.and_self]
    rw [replaceGroups_cons, hm]
    simp only [if_true]

theorem removeNonDigits_all (l : List Char) : (removeNonDigits l).all Char.isDigit = true := by
  simp [removeNonDigits]

theorem hyphenate_take_ten (d : List Char) :
    hyphenate (d.take 10) ++ d.drop 10 =
      d.take 3 ++ '-' :: (d.drop 3).take 3 ++ '-' :: (d.drop 6).take 4 ++ d.drop 10 := by
  simp [hyphenate, List.take_take, List.drop_take]

theorem formattedValue_eq_groupedDigits (value : String) :
    formattedValue value = groupedDigits value := by
  unfold formattedValue groupedDigits
  show String.mk (replaceGroups (removeNonDigits value.data)) =
    if (removeNonDigits value.data).length < 10 then String.mk (removeNonDigits value.data)
    else if (removeNonDigits value.data).length = 10 then
      String.mk (hyphenate (removeNonDigits value.data))
    else String.mk (hyphenate ((removeNonDigits value.data).take 10)
      ++ (removeNonDigits value.data).drop 10)
  generalize hdd : removeNonDigits value.data = d
  have hd : d.all Char.isDigit = true := hdd ▸ removeNonDigits_all value.data
  by_cases h1 : d.length < 10
  · rw [if_pos h1, replaceGroups_short d h1]
  · rw [if_neg h1, replaceGroups_digits d hd (by omega), ← hyphenate_take_ten]
    by_cases h2 : d.length = 10
    · rw [if_pos h2]
      have ht : d.take 10 = d := List.take_of_length_le (by omega)
      have hdr : d.drop 10 = [] := List.drop_of_length_le (by omega)
      rw [ht, hdr, List.append_nil]
    · rw [if_neg h2]

/-- C6: a change of the `phoneNumber` input stores the digit-grouped form of
the digits `d` of the typed value: `d` itself below ten digits, `AAA-BBB-CCCC`
at ten digits, and the first ten digits so grouped followed by the remaining
digits above ten. -/
theorem handleChange_phoneNumber_grouped (env : Env) (st : State) (value : String) :
    (handleChange env st .phoneNumber value).formData.phoneNumber = groupedDigits value := by
  rw [← formattedValue_eq_groupedDigits]
  simp [handleChange, FormData.set]

theorem digits_of_formattedValue (s : String) :
    removeNonDigits (formattedValue s).data = removeNonDigits s.data := by
  show (replaceGroups (removeNonDigits s.data)).filter Char.isDigit = removeNonDigits s.data
  rw [filter_replaceGroups Char.isDigit (by decide)]
  simp [removeNonDigits]

theorem mem_replaceGroups (l : List Char) (x : Char) (hx : x ∈ replaceGroups l) :
    x = '-' ∨ x ∈ l := by
  induction l with
  | nil => simp [replaceGroups] at hx
  | cons c cs ih =>
    rw [replaceGroups_cons] at hx
    split at hx
    · simp only [List.mem_append, List.mem_cons] at hx
      rcases hx with ((h | h | h) | h | h) | h
      · exact Or.inr (List.mem_of_mem_take h)
      · exact Or.inl h
      · exact Or.inr (List.mem_of_mem_drop (List.mem_of_mem_take h))
      · exact Or.inl h
      · exact Or.inr (List.mem_of_mem_drop (List.mem_of_mem_take h))
      · exact Or.inr (List.mem_of_mem_drop h)
    · rcases List.mem_cons.1 hx with h | h
      · exact Or.inr (h ▸ List.mem_cons_self _ _)
      · rcases ih h with h' | h'
        · exact Or.inl h'
        · exact Or.inr (List.mem_cons_of_mem _ h')

/-- C10: the formatting `handleChange` applies to a phone number is
idempotent, its output holds only digits and hyphens, and the output without
its hyphens is the digit characters of the input in their order; typing the
stored value again stores the same value. -/
theorem formattedValue_idempotent_digit_preserving (s : String) :
    formattedValue (formattedValue s) = formattedValue s ∧
    (∀ c ∈ (formattedValue s).data, c.isDigit = true ∨ c = '-') ∧
    removeHyphens (formattedValue s) = String.mk (s.data.filter Char.isDigit) ∧
    (∀ (env : Env) (st : State),
      handleChange env (handleChange env st .phoneNumber s) .phoneNumber
          (handleChange env st .phoneNumber s).formData.phoneNumber =
        handleChange env st .phoneNumber s) := by
  have hidem : formattedValue (formattedValue s) = formattedValue s := by
    show String.mk (replaceGroups (removeNonDigits (formattedValue s).data)) = _
    rw [digits_of_formattedValue]
    rfl
  refine ⟨hidem, ?_, ?_, ?_⟩
  · intro c hc
    rcases mem_replaceGroups _ c hc with h | h
    · exact Or.inr h
    · left
      have := removeNonDigits_all s.data
      rw [List.all_eq_true] at this
      exact this c h
  · show String.mk ((replaceGroups (removeNonDigits s.data)).filter (fun c => c != '-')) = _
    rw [filter_replaceGroups _ (by decide)]
    congr 1
    simp only [removeNonDigits, List.filter_filter]
    apply List.filter_congr
    intro c _
    by_cases hc : c = '-'
    · subst hc
      decide
    · simp [hc]
  · intro env st
    have hstored : (handleChange env st .phoneNumber s).formData.phoneNumber =
        formattedValue s := by
      simp [handleChange, FormData.set]
    rw [hstored]
    simp [handleChange, FormData.set, hidem, errors_set_set]

/-! ## Submission -/

theorem handleSubmit_invalid (env : Env) (st : State) (outcome : Outcome)
    (h : (validateForm env st.formData).2 = false) :
    handleSubmit env st outcome =
      { state := { st with errors := (validateForm env st.formData).1 }
        requests := [], logs := [], timers := [] } := by
  simp [handleSubmit, h]

theorem handleSubmit_valid (env : Env) (st : State) (outcome : Outcome)
    (h : (validateForm env st.formData).2 = true) :
    handleSubmit env st outcome =
      { state := (afterFetch outcome { st with errors := (validateForm env st.formData).1 }).1
        requests := [submitRequest env st.formData]
        logs := (afterFetch outcome { st with errors := (validateForm env st.formData).1 }).2.1
        timers := (afterFetch outcome { st with errors := (validateForm env st.formData).1 }).2.2 } := by
  simp [handleSubmit, h]

/-- C2: `handleSubmit` sends a request exactly when `validateForm` returns
true; it is then one POST to `http://localhost:3001/users` whose body is the
JSON of the current `formData`; when validation fails nothing is sent and
`formData` is unchanged. -/
theorem handleSubmit_posts_iff_valid (env : Env) (st : State) (outcome : Outcome) :
    ((handleSubmit env st outcome).requests ≠ [] ↔ (validateForm env st.formData).2 = true) ∧
    ((validateForm env st.formData).2 = true →
      (handleSubmit env st outcome).requests =
        [{ url := "http://localhost:3001/users", method := "POST",
           headers := [("Content-Type", "application/json")],
           body := env.jsonStringify st.formData }]) ∧
    ((validateForm env st.formData).2 = false →
      (handleSubmit env st outcome).requests = [] ∧
      (handleSubmit env st outcome).state.formData = st.formData) := by
  cases h : (validateForm env st.formData).2
  · rw [handleSubmit_invalid env st outcome h]
    simp
  · rw [handleSubmit_valid env st outcome h]
    simp [submitRequest]

/-- Witness of C2: the filled-in form is posted once, the untouched form is
not posted. -/
theorem handleSubmit_posts_iff_valid_witness :
    (handleSubmit sampleEnv { initialState with formData := filledForm } .ok).requests =
      [{ url := "http://localhost:3001/users", method := "POST",
         headers := [("Content-Type", "application/json")],
         body := "Ann|Lee|India|123-456-7890|ann@x.io" }] ∧
    (handleSubmit sampleEnv initialState .ok).requests = [] ∧
    (handleSubmit sampleEnv initialState .ok).state.formData = initialFormData :=
  ⟨(handleSubmit_posts_iff_valid sampleEnv { initialState with formData := filledForm } .ok).2.1
      (by decide),
   (handleSubmit_posts_iff_valid sampleEnv initialState .ok).2.2 (by decide)⟩

/-- C3: on a form that passes validation, a response with `ok` true makes
`handleSubmit` put `formData` back to six empty strings and set
`submissionSuccess` to true. -/
theorem handleSubmit_ok_resets (env : Env) (st : State)
    (hvalid : (validateForm env st.formData).2 = true) :
    (handleSubmit env st .ok).state.formData =
      { firstName := "", lastName := "", region := "", regionCode := .str "",
        phoneNumber := "", email := "" } ∧
    (handleSubmit env st .ok).state.formData = initialState.formData ∧
    (handleSubmit env st .ok).state.submissionSuccess = true := by
  rw [handleSubmit_valid env st .ok hvalid]
  exact ⟨rfl, rfl, rfl⟩

/-- Witness of C3: the filled-in form is emptied by a successful submission. -/
theorem handleSubmit_ok_resets_witness :
    (validateForm sampleEnv filledForm).2 = true ∧
    (handleSubmit sampleEnv { initialState with formData := filledForm } .ok).state.formData =
      { firstName := "", lastName := "", region := "", regionCode := .str "",
        phoneNumber := "", email := "" } ∧
    (handleSubmit sampleEnv { initialState with formData := filledForm } .ok).state.submissionSuccess
      = true :=
  ⟨by decide,
   (handleSubmit_ok_resets sampleEnv { initialState with formData := filledForm } (by decide)).1,
   (handleSubmit_ok_resets sampleEnv { initialState with formData := filledForm }
      (by decide)).2.2⟩

/-- C4: on a form that passes validation, a response with `ok` false or a
rejected request makes `handleSubmit` write one line to the console and
nothing else: `formData` keeps every value, `submissionSuccess` keeps its
value (false stays false) and no timer is armed. -/
theorem handleSubmit_failure_keeps_form (env : Env) (st : State) (outcome : Outcome)
    (hvalid : (validateForm env st.formData).2 = true)
    (hfail : outcome = .notOk ∨ outcome = .networkError) :
    (handleSubmit env st outcome).state.formData = st.formData ∧
    (∀ name : Field, (handleSubmit env st outcome).state.formData.get name = st.formData.get name) ∧
    (handleSubmit env st outcome).state.submissionSuccess = st.submissionSuccess ∧
    (st.submissionSuccess = false → (handleSubmit env st outcome).state.submissionSuccess = false) ∧
    (handleSubmit env st outcome).logs.length = 1 ∧
    (handleSubmit env st outcome).timers = [] := by
  rw [handleSubmit_valid env st outcome hvalid]
  rcases hfail with h | h <;> subst h <;> simp [afterFetch]

/-- Witness of C4: the filled-in form survives a response that is not ok. -/
theorem handleSubmit_failure_keeps_form_witness :
    (validateForm sampleEnv filledForm).2 = true ∧
    (handleSubmit sampleEnv { initialState with formData := filledForm } .notOk).state.formData =
      filledForm ∧
    (handleSubmit sampleEnv { initialState with formData := filledForm }
      .networkError).state.submissionSuccess = false :=
  ⟨by decide,
   (handleSubmit_failure_keeps_form sampleEnv { initialState with formData := filledForm } .notOk
      (by decide) (Or.inl rfl)).1,
   (handleSubmit_failure_keeps_form sampleEnv { initialState with formData := filledForm }
      .networkError (by decide) (Or.inr rfl)).2.2.1⟩

/-- C5: a form whose phone number has three digits gets no `phoneNumber`
error: typing `123` stores `123`, `validateForm` returns true on the
otherwise filled-in form and `handleSubmit` posts it. -/
theorem validateForm_accepts_short_phone :
    (handleChange sampleEnv { initialState with formData := filledForm } .phoneNumber
      "123").formData = shortPhoneForm ∧
    digitCount shortPhoneForm.phoneNumber = 3 ∧
    (validateForm sampleEnv shortPhoneForm).1.get .phoneNumber = none ∧
    (validateForm sampleEnv shortPhoneForm).2 = true ∧
    (handleSubmit sampleEnv { initialState with formData := shortPhoneForm } .ok).requests.length
      = 1 := by
  decide

/-! ## What one step does to `formData` -/

theorem handleSubmit_formData (env : Env) (st : State) (outcome : Outcome) :
    (handleSubmit env st outcome).state.formData = st.formData ∨
    (handleSubmit env st outcome).state.formData = initialFormData := by
  cases h : (validateForm env st.formData).2
  · rw [handleSubmit_invalid env st outcome h]
    exact Or.inl rfl
  · rw [handleSubmit_valid env st outcome h]
    cases outcome
    · exact Or.inr rfl
    · exact Or.inl rfl
    · exact Or.inl rfl

theorem afterFetch_formData (outcome : Outcome) (st : State) :
    (afterFetch outcome st).1.formData = st.formData ∨
    (afterFetch outcome st).1.formData = initialFormData := by
  cases outcome
  · exact Or.inr rfl
  · exact Or.inl rfl
  · exact Or.inl rfl

theorem handleChange_rejected (env : Env) (st : State) (name : Field) (value : String)
    (hname : name = .firstName ∨ name = .lastName) (hvalue : value ≠ "")
    (hmatch : env.nameRegex value = false) :
    handleChange env st name value = st := by
  rw [handleChange, if_pos ⟨hname, hmatch, hvalue⟩]

theorem handleChange_accepted (env : Env) (st : State) (name : Field) (value : String)
    (h : (name ≠ .firstName ∧ name ≠ .lastName) ∨ value = "" ∨ env.nameRegex value = true) :
    handleChange env st name value =
      { st with
        formData := st.formData.set name (if name = .phoneNumber then formattedValue value else value)
        errors := st.errors.set name "" } := by
  have hg : ¬ ((name = .firstName ∨ name = .lastName) ∧ env.nameRegex value = false ∧
      value ≠ "") := by
    rintro ⟨h1, h2, h3⟩
    rcases h with h | h | h
    · rcases h1 with h1 | h1
      · exact h.1 h1
      · exact h.2 h1
    · exact h3 h
    · rw [h2] at h
      exact Bool.noConfusion h
  rw [handleChange, if_neg hg]
  by_cases hp : name = .phoneNumber <;> simp [hp]

theorem handleChange_names (env : Env) (st : State) (name : Field) (value : String)
    (h1 : nameAllowed env st.formData.firstName) (h2 : nameAllowed env st.formData.lastName) :
    nameAllowed env (handleChange env st name value).formData.firstName ∧
    nameAllowed env (handleChange env st name value).formData.lastName := by
  by_cases hacc : (name ≠ .firstName ∧ name ≠ .lastName) ∨ value = "" ∨ env.nameRegex value = true
  · rw [handleChange_accepted env st name value hacc]
    rcases hacc with h | h
    · cases name <;> first | exact absurd rfl h.1 | exact absurd rfl h.2 | exact ⟨h1, h2⟩
    · cases name <;> first | exact ⟨h, h2⟩ | exact ⟨h1, h⟩ | exact ⟨h1, h2⟩
  · have hrej : handleChange env st name value = st := by
      apply handleChange_rejected
      · by_contra hn
        exact hacc (Or.inl (not_or.1 hn))
      · exact fun hv => hacc (Or.inr (Or.inl hv))
      · cases hm : env.nameRegex value
        · rfl
        · exact absurd (Or.inr (Or.inr hm)) hacc
    rw [hrej]
    exact ⟨h1, h2⟩

theorem reachable_names (env : Env) (allowed : Field → Prop) (st : State)
    (h : Reachable env allowed st) :
    nameAllowed env st.formData.firstName ∧ nameAllowed env st.formData.lastName := by
  induction h with
  | init => exact ⟨Or.inl rfl, Or.inl rfl⟩
  | change st name value _ _ ih => exact handleChange_names env st name value ih.1 ih.2
  | regionChange st r _ ih => exact ih
  | submit st outcome _ ih =>
    rcases handleSubmit_formData env st outcome with h | h <;> rw [h]
    · exact ih
    · exact ⟨Or.inl rfl, Or.inl rfl⟩
  | settle st outcome _ ih =>
    rcases afterFetch_formData outcome st with h | h <;> rw [h]
    · exact ih
    · exact ⟨Or.inl rfl, Or.inl rfl⟩
  | timeout st _ ih => exact ih

/-- C7: a change of `firstName` or `lastName` to a non-empty value the name
pattern rejects leaves `formData` and `errors` as they were; so in every state
reached from the initial one through the handlers, `firstName` and `lastName`
are each empty or a string the name pattern accepts. -/
theorem name_fields_follow_nameRegex (env : Env) :
    (∀ (st : State) (name : Field) (value : String),
      name = .firstName ∨ name = .lastName → value ≠ "" → env.nameRegex value = false →
      (handleChange env st name value).formData = st.formData ∧
      (handleChange env st name value).errors = st.errors) ∧
    (∀ st : State, Reachable env anyInput st →
      (st.formData.firstName = "" ∨ env.nameRegex st.formData.firstName = true) ∧
      (st.formData.lastName = "" ∨ env.nameRegex st.formData.lastName = true)) := by
  constructor
  · intro st name value hname hvalue hmatch
    rw [handleChange_rejected env st name value hname hvalue hmatch]
    exact ⟨rfl, rfl⟩
  · intro st h
    exact reachable_names env anyInput st h

/-- Witness of C7: `Ann3` is refused as a first name after `Ann` was typed,
and the state so reached holds an accepted first name. -/
theorem name_fields_follow_nameRegex_witness :
    (handleChange sampleEnv (handleChange sampleEnv initialState .firstName "Ann") .firstName
        "Ann3").formData = (handleChange sampleEnv initialState .firstName "Ann").formData ∧
    sampleEnv.nameRegex
      (handleChange sampleEnv initialState .firstName "Ann").formData.firstName = true :=
  ⟨((name_fields_follow_nameRegex sampleEnv).1
      (handleChange sampleEnv initialState .firstName "Ann") .firstName "Ann3"
      (Or.inl rfl) (by decide) (by decide)).1,
   ((name_fields_follow_nameRegex sampleEnv).2
      (handleChange sampleEnv initialState .firstName "Ann")
      (Reachable.change initialState .firstName "Ann" Reachable.init trivial)).1.resolve_left
      (by decide)⟩

/-! ## Region and region code -/

theorem handleChange_region_fields (env : Env) (st : State) (name : Field) (value : String)
    (hw : wiredInput name) :
    (handleChange env st name value).formData.region = st.formData.region ∧
    (handleChange env st name value).formData.regionCode = st.formData.regionCode := by
  unfold handleChange
  split
  · exact ⟨rfl, rfl⟩
  · cases name <;> first | exact absurd hw id | exact ⟨rfl, rfl⟩

/-- C8: `handleRegionChange` with selected region `r` sets `region` to `r`
and `regionCode` to `regions[r]` and keeps the four typed fields; so, the
table having no entry for the empty name, in every state reached through the
handlers the page wires up, a `region` that is a key of the table comes with
the table's code for it in `regionCode`. -/
theorem regionCode_follows_region (env : Env) (hempty : env.regions.lookup "" = none) :
    (∀ (st : State) (r : String),
      (handleRegionChange env st r).formData.region = r ∧
      (handleRegionChange env st r).formData.regionCode = regionsLookup env r ∧
      (handleRegionChange env st r).formData.firstName = st.formData.firstName ∧
      (handleRegionChange env st r).formData.lastName = st.formData.lastName ∧
      (handleRegionChange env st r).formData.phoneNumber = st.formData.phoneNumber ∧
      (handleRegionChange env st r).formData.email = st.formData.email) ∧
    (∀ st : State, Reachable env wiredInput st →
      ∀ code : Value, env.regions.lookup st.formData.region = some code →
        st.formData.regionCode = code) := by
  constructor
  · intro st r
    exact ⟨rfl, rfl, rfl, rfl, rfl, rfl⟩
  · intro st h
    have hinit : ∀ code : Value, env.regions.lookup initialFormData.region = some code →
        initialFormData.regionCode = code := by
      intro code hc
      have : env.regions.lookup "" = some code := hc
      rw [hempty] at this
      exact Option.noConfusion this
    induction h with
    | init => exact hinit
    | change st name value _ hw ih =>
      obtain ⟨hr, hc⟩ := handleChange_region_fields env st name value hw
      rw [hr, hc]
      exact ih
    | regionChange st r _ _ =>
      intro code hc
      show regionsLookup env r = code
      have hc' : env.regions.lookup r = some code := hc
      simp [regionsLookup, hc']
    | submit st outcome _ ih =>
      rcases handleSubmit_formData env st outcome with h | h <;> rw [h]
      · exact ih
      · exact hinit
    | settle st outcome _ ih =>
      rcases afterFetch_formData outcome st with h | h <;> rw [h]
      · exact ih
      · exact hinit
    | timeout st _ ih => exact ih

/-- Witness of C8: choosing `India` and then typing a first name leaves the
code of India in `regionCode`. -/
theorem regionCode_follows_region_witness :
    sampleEnv.regions.lookup "" = none ∧
    (handleRegionChange sampleEnv initialState "India").formData.regionCode = .str "+91" ∧
    (handleChange sampleEnv (handleRegionChange sampleEnv initialState "India") .firstName
      "Ann").formData.regionCode = .str "+91" :=
  ⟨by decide,
   ((regionCode_follows_region sampleEnv (by decide)).1 initialState "India").2.1,
   (regionCode_follows_region sampleEnv (by decide)).2
      (handleChange sampleEnv (handleRegionChange sampleEnv initialState "India") .firstName "Ann")
      (Reachable.change _ .firstName "Ann"
        (Reachable.regionChange initialState "India" Reachable.init) trivial)
      (.str "+91") (by decide)⟩

/-! ## The frame of `handleChange` -/

/-- C9: an accepted change of field `n` to value `v` sets the error of `n` to
the empty string and keeps every other error, and in `formData` sets `n` (to
`v`, or to the formatted digits of `v` for `phoneNumber`) and keeps every
other field. -/
theorem handleChange_frame (env : Env) (st : State) (n : Field) (v : String)
    (haccepted : (n ≠ .firstName ∧ n ≠ .lastName) ∨ v = "" ∨ env.nameRegex v = true) :
    (handleChange env st n v).errors.get n = some "" ∧
    (∀ m : Field, m ≠ n → (handleChange env st n v).errors.get m = st.errors.get m) ∧
    (handleChange env st n v).formData.get n =
      .str (if n = .phoneNumber then formattedValue v else v) ∧
    (∀ m : Field, m ≠ n → (handleChange env st n v).formData.get m = st.formData.get m) := by
  rw [handleChange_accepted env st n v haccepted]
  exact ⟨errors_get_set_same _ _ _, fun m hm => errors_get_set_other _ _ _ _ hm,
    formData_get_set_same _ _ _, fun m hm => formData_get_set_other _ _ _ _ hm⟩

/-- Witness of C9: typing an email into the form that `validateForm` has
marked clears the email error and keeps the first-name error. -/
theorem handleChange_frame_witness :
    (handleChange sampleEnv (handleSubmit sampleEnv initialState .ok).state .email
      "ann@x.io").errors.get .email = some "" ∧
    (handleChange sampleEnv (handleSubmit sampleEnv initialState .ok).state .email
      "ann@x.io").errors.get .firstName = some "First name is required" ∧
    (handleChange sampleEnv (handleSubmit sampleEnv initialState .ok).state .email
      "ann@x.io").formData.get .email = .str "ann@x.io" :=
  ⟨(handleChange_frame sampleEnv (handleSubmit sampleEnv initialState .ok).state .email
      "ann@x.io" (Or.inl (by decide))).1,
   ((handleChange_frame sampleEnv (handleSubmit sampleEnv initialState .ok).state .email
      "ann@x.io" (Or.inl (by decide))).2.1 .firstName (by decide)).trans (by decide),
   (handleChange_frame sampleEnv (handleSubmit sampleEnv initialState .ok).state .email
      "ann@x.io" (Or.inl (by decide))).2.2.1⟩

end SignUpForm
